import Mathlib

/-
  Shallow embedding of the Algo-Trader-Pro core (risk manager, motif ensemble,
  adaptive learning, strategy engine) over exact rationals.

  Conventions of the embedding:
  * JavaScript numbers are modelled as `ℚ` (exact arithmetic); the one explicit
    decimal rounding the source performs, `parseFloat(x.toFixed(8))`, is
    modelled by `round8`.
  * `number | undefined` fields are `Option ℚ`; JavaScript truthiness tests
    (`if (!x)`) are modelled by `qTruthy`, which is false on `none` and on
    `some 0`.
  * JavaScript `Map` objects are modelled as insertion-ordered association
    lists with `mapGet` / `mapSet` / `mapDelete`.
  * `ℚ` division by zero yields 0 in Lean where JavaScript would give
    Infinity/NaN; every theorem below either avoids such inputs or the
    division-free comparison used is noted to agree with the source there.
  * `Date.now()` timestamps are passed in as an explicit `now : ℤ` argument;
    `Math.tanh` (a transcendental float primitive) is passed in as an
    uninterpreted parameter `tanh : ℚ → ℚ`.
-/

namespace AlgoTrader

/-- Map lookup on an insertion-ordered association list (JS `Map.get`). -/
def mapGet {K V : Type} [DecidableEq K] : List (K × V) → K → Option V
  | [], _ => none
  | (k0, v0) :: rest, k => if k0 = k then some v0 else mapGet rest k

/-- Map update on an insertion-ordered association list (JS `Map.set`):
overwrites in place if the key exists, otherwise appends. -/
def mapSet {K V : Type} [DecidableEq K] : List (K × V) → K → V → List (K × V)
  | [], k, v => [(k, v)]
  | (k0, v0) :: rest, k, v =>
    if k0 = k then (k, v) :: rest else (k0, v0) :: mapSet rest k v

/-- Map removal (JS `Map.delete`). -/
def mapDelete {K V : Type} [DecidableEq K] : List (K × V) → K → List (K × V)
  | [], _ => []
  | (k0, v0) :: rest, k =>
    if k0 = k then rest else (k0, v0) :: mapDelete rest k

/-- JavaScript truthiness of a `number | undefined` value: `undefined` and `0`
are falsy. -/
def qTruthy : Option ℚ → Bool
  | none => false
  | some x => decide (x ≠ 0)

/-- Rounding to 8 decimal places, the effect of the source's
`parseFloat(x.toFixed(8))`. Ties (x·10^8 at exactly .5) cannot arise from
binary floats, so round-half-up is a faithful model. -/
def round8 (x : ℚ) : ℚ := (⌊x * 100000000 + 1 / 2⌋ : ℚ) / 100000000

/-- Position side, derived from the signal in `openPosition`
(`signal > 0.5` gives LONG). From `risk-manager.ts`. -/
inductive Side
  | LONG
  | SHORT
  deriving DecidableEq, Repr

/-- The `Position` interface of `risk-manager.ts` (all `number` fields as `ℚ`,
optional fields as `Option ℚ`). -/
structure Position where
  symbol : String
  side : Side
  entryPrice : ℚ
  quantity : ℚ
  stopLoss : ℚ
  takeProfit : ℚ
  riskAmount : ℚ
  potentialReward : ℚ
  riskRewardRatio : ℚ
  createdAt : ℤ
  initialSignal : Option ℚ
  dynamicStop : Option ℚ
  lastAtr : Option ℚ
  trailingStopPrice : Option ℚ
  highestPrice : Option ℚ
  lowestPrice : Option ℚ
  partialClosedQuantity : Option ℚ
  deriving DecidableEq, Repr

/-- A closed trade pushed onto `tradeHistory` by a full close: the position
snapshot plus exit data (`closePosition`, risk-manager.ts lines 307-313). -/
structure ClosedTrade where
  position : Position
  exitPrice : ℚ
  pnl : ℚ
  pnlPercent : ℚ
  closedAt : ℤ
  deriving DecidableEq, Repr

/-- The result object returned by `closePosition`. -/
structure CloseResult where
  positionId : String × ℤ
  pnl : ℚ
  pnlPercent : ℚ
  newBalance : ℚ
  fullyClosed : Bool
  deriving DecidableEq, Repr

/-- The mutable state of the `RiskManager` class: the open-position book keyed
by `(symbol, createdAt)` (the source's `symbol_createdAt` string key), the
account balance, the trade history and the configuration fields. -/
structure RMState where
  portfolio : List ((String × ℤ) × Position)
  accountBalance : ℚ
  tradeHistory : List ClosedTrade
  maxPositionRisk : ℚ
  maxTotalRisk : ℚ
  riskRewardRatioMin : ℚ
  atrMultiplier : ℚ
  deriving DecidableEq, Repr

/-- A fresh `RiskManager` with the constructor defaults of the source
(`maxPositionRisk = 0.015`, `maxTotalRisk = 0.10`, `riskRewardRatioMin = 1.3`,
`atrMultiplier = 1.2`). -/
def initialRMState (initialBalance : ℚ) : RMState :=
  { portfolio := []
    accountBalance := initialBalance
    tradeHistory := []
    maxPositionRisk := 0.015
    maxTotalRisk := 0.10
    riskRewardRatioMin := 1.3
    atrMultiplier := 1.2 }

/-- Total open risk: `Σ pos.riskAmount` over the portfolio values
(risk-manager.ts line 145 / 376). -/
def totalRisk (s : RMState) : ℚ :=
  s.portfolio.foldl (fun sum pos => sum + pos.2.riskAmount) 0

/-- The `validateTrade` check chain (risk-manager.ts lines 114-151), as the
boolean validity (the `reason` strings are log diagnostics only). The source
compares `ratio = rewardAmount / riskAmount` against the minimum; this is
stated division-free as `rewardAmount < min · riskAmount`, which agrees with
the source for `riskAmount > 0` and also for `riskAmount = 0`, where the
source's Infinity/NaN ratio is never below the minimum. -/
def validateTrade (s : RMState) (entryPrice stopLoss takeProfit quantity signal : ℚ) : Bool :=
  let positionValue := entryPrice * quantity
  if positionValue > s.accountBalance * 0.1 then false
  else
    let riskAmount := |entryPrice - stopLoss|
    let rewardAmount := |takeProfit - entryPrice|
    if rewardAmount < s.riskRewardRatioMin * riskAmount then false
    else if signal > 0.5 ∧ stopLoss > entryPrice then false
    else if signal < 0.5 ∧ stopLoss < entryPrice then false
    else if totalRisk s > s.accountBalance * s.maxTotalRisk then false
    else true

/-- The `openPosition` operation (risk-manager.ts lines 153-190): derives the
side from the signal, computes risk/reward, validates, and on success inserts
the new position keyed by `(symbol, createdAt)`; on failure returns `none`
with the state untouched. (`riskRewardRatio` is only stored; when
`riskAmount = 0` the source stores Infinity/NaN, here 0.) -/
def openPosition (s : RMState) (symbol : String)
    (entryPrice quantity stopLoss takeProfit signal : ℚ) (now : ℤ) :
    Option Position × RMState :=
  let side := if signal > 0.5 then Side.LONG else Side.SHORT
  let riskAmount := |entryPrice - stopLoss| * quantity
  let potentialReward := |takeProfit - entryPrice| * quantity
  if validateTrade s entryPrice stopLoss takeProfit quantity signal then
    let position : Position :=
      { symbol := symbol
        side := side
        entryPrice := entryPrice
        quantity := quantity
        stopLoss := stopLoss
        takeProfit := takeProfit
        riskAmount := riskAmount
        potentialReward := potentialReward
        riskRewardRatio := potentialReward / riskAmount
        createdAt := now
        initialSignal := some signal
        dynamicStop := some stopLoss
        lastAtr := none
        trailingStopPrice := none
        highestPrice := none
        lowestPrice := none
        partialClosedQuantity := none }
    (some position, { s with portfolio := mapSet s.portfolio (symbol, now) position })
  else
    (none, s)

/-- The `calculateTakeProfit` operation (risk-manager.ts lines 102-112),
including its final `parseFloat(toFixed(8))` rounding. -/
def calculateTakeProfit (entryPrice stopLoss : ℚ) (riskRewardRatio : ℚ) : ℚ :=
  let riskAmount := |entryPrice - stopLoss|
  let rewardAmount := riskAmount * riskRewardRatio
  let direction : ℚ := if entryPrice > stopLoss then 1 else -1
  round8 (entryPrice + direction * rewardAmount)

/-- The `calculateTrailingStop` helper (risk-manager.ts lines 216-228):
trailing distance is `atr · 1.2`; for LONG the candidate stop is capped below
by the current stop, for SHORT capped above. -/
def calculateTrailingStop (position : Position) (currentPrice atr : ℚ) : ℚ :=
  let trailingDistance := atr * 1.2
  match position.side with
  | Side.LONG => max (currentPrice - trailingDistance) position.stopLoss
  | Side.SHORT => min (currentPrice + trailingDistance) position.stopLoss

/-- The body of `updateTrailingStop` (risk-manager.ts lines 231-260) acting on
the position found in the book: track the high/low water mark (a `0` water
mark is falsy in the source and is overwritten), store the trailing stop, and
ratchet `stopLoss` toward it. -/
def updateTrailingStopPos (position : Position) (currentPrice atr : ℚ) : Position :=
  match position.side with
  | Side.LONG =>
    let p1 :=
      { position with
        highestPrice :=
          match position.highestPrice with
          | none => some currentPrice
          | some h => if h = 0 ∨ currentPrice > h then some currentPrice else some h }
    let newTrailingStop := calculateTrailingStop p1 currentPrice atr
    let p2 := { p1 with trailingStopPrice := some newTrailingStop }
    if newTrailingStop > p2.stopLoss then { p2 with stopLoss := newTrailingStop } else p2
  | Side.SHORT =>
    let p1 :=
      { position with
        lowestPrice :=
          match position.lowestPrice with
          | none => some currentPrice
          | some l => if l = 0 ∨ currentPrice < l then some currentPrice else some l }
    let newTrailingStop := calculateTrailingStop p1 currentPrice atr
    let p2 := { p1 with trailingStopPrice := some newTrailingStop }
    if newTrailingStop < p2.stopLoss then { p2 with stopLoss := newTrailingStop } else p2

/-- The book-level `updateTrailingStop(positionId, currentPrice, atr)`:
look up the position and store the updated one back. -/
def updateTrailingStop (s : RMState) (positionId : String × ℤ) (currentPrice atr : ℚ) : RMState :=
  match mapGet s.portfolio positionId with
  | none => s
  | some position =>
    { s with portfolio := mapSet s.portfolio positionId (updateTrailingStopPos position currentPrice atr) }

/-- Successive `updateTrailingStop` calls on one position, with the
`(currentPrice, atr)` argument pairs given as a list. -/
def applyTrailingCalls (p : Position) (calls : List (ℚ × ℚ)) : Position :=
  calls.foldl (fun q c => updateTrailingStopPos q c.1 c.2) p

/-- The `closePosition` operation (risk-manager.ts lines 294-329). The
source's `quantityToClose || position.quantity` makes an absent or zero
`quantityToClose` mean a full close. A non-positive remaining quantity is a
full close (balance credited, snapshot pushed to history, key removed);
otherwise the position stays with its quantity decremented and
`partialClosedQuantity` accumulated. -/
def closePosition (s : RMState) (positionId : String × ℤ) (exitPrice : ℚ)
    (quantityToClose : Option ℚ) (now : ℤ) : Option CloseResult × RMState :=
  match mapGet s.portfolio positionId with
  | none => (none, s)
  | some position =>
    let closingQuantity :=
      match quantityToClose with
      | none => position.quantity
      | some q => if q = 0 then position.quantity else q
    let remainingQuantity := position.quantity - closingQuantity
    let pnl := (exitPrice - position.entryPrice) * closingQuantity *
      (if position.side = Side.LONG then 1 else -1)
    let pnlPercent := pnl / (position.entryPrice * closingQuantity) * 100
    let newBalance := s.accountBalance + pnl
    if remainingQuantity ≤ 0 then
      let closed : ClosedTrade :=
        { position := position, exitPrice := exitPrice, pnl := pnl,
          pnlPercent := pnlPercent, closedAt := now }
      (some { positionId := positionId, pnl := pnl, pnlPercent := pnlPercent,
              newBalance := newBalance, fullyClosed := true },
       { s with accountBalance := newBalance,
                tradeHistory := s.tradeHistory ++ [closed],
                portfolio := mapDelete s.portfolio positionId })
    else
      let position1 :=
        { position with
          quantity := remainingQuantity,
          partialClosedQuantity := some (position.partialClosedQuantity.getD 0 + closingQuantity) }
      (some { positionId := positionId, pnl := pnl, pnlPercent := pnlPercent,
              newBalance := newBalance, fullyClosed := false },
       { s with accountBalance := newBalance,
                portfolio := mapSet s.portfolio positionId position1 })

/-- A sequence of `closePosition` calls on one position id, with
`(exitPrice, quantityToClose)` pairs; timestamps are irrelevant here and
fixed to 0. -/
def applyCloses (s : RMState) (positionId : String × ℤ) : List (ℚ × ℚ) → RMState
  | [] => s
  | (e, q) :: rest => applyCloses (closePosition s positionId e (some q) 0).2 positionId rest

/-- The calls of a close sequence are partial closes: at each step the
requested quantity is strictly between 0 and the position's current open
quantity. -/
def partialOk (s : RMState) (positionId : String × ℤ) : List (ℚ × ℚ) → Prop
  | [] => True
  | (e, q) :: rest =>
    (∃ p, mapGet s.portfolio positionId = some p ∧ 0 < q ∧ q < p.quantity) ∧
    partialOk (closePosition s positionId e (some q) 0).2 positionId rest

/-- The motif taxonomy (`MotifType` in motifs.ts). -/
inductive MotifType
  | trend
  | momentum
  | volatility
  | sentiment
  deriving DecidableEq, Repr

/-- The per-motif counters of the `BayesianLearning` class
(learning-system.ts): `successCounts` and `failureCounts`. -/
structure BLState where
  successCounts : MotifType → ℕ
  failureCounts : MotifType → ℕ

/-- A fresh `BayesianLearning` instance: all counters zero. -/
def initialBL : BLState := { successCounts := fun _ => 0, failureCounts := fun _ => 0 }

/-- The `recordOutcome(motifType, success)` operation: increments the matching
counter. -/
def recordOutcome (st : BLState) (motifType : MotifType) (success : Bool) : BLState :=
  if success then
    { st with successCounts := fun m => if m = motifType then st.successCounts m + 1 else st.successCounts m }
  else
    { st with failureCounts := fun m => if m = motifType then st.failureCounts m + 1 else st.failureCounts m }

/-- The `estimateSuccessRate` operation (learning-system.ts lines 138-142):
Beta-Binomial posterior mean `alpha / (alpha + beta)` with
`alpha = 1 + successCounts`, `beta = 1 + failureCounts`. -/
def estimateSuccessRate (st : BLState) (motifType : MotifType) : ℚ :=
  let alpha : ℚ := 1 + (st.successCounts motifType : ℚ)
  let beta : ℚ := 1 + (st.failureCounts motifType : ℚ)
  alpha / (alpha + beta)

/-- A sequence of recorded outcomes applied to a `BayesianLearning` state. -/
def applyOutcomes (st : BLState) (outcomes : List (MotifType × Bool)) : BLState :=
  outcomes.foldl (fun acc o => recordOutcome acc o.1 o.2) st

/-- Number of outcomes recorded for a given motif with the given result. -/
def countOutcomes : List (MotifType × Bool) → MotifType → Bool → ℕ
  | [], _, _ => 0
  | o :: rest, motifType, result =>
    (if o.1 = motifType ∧ o.2 = result then 1 else 0) + countOutcomes rest motifType result

/-- The `MarkovChain.getPriceState` bucketing (learning-system.ts lines
200-208), an if-chain over the signal (volatility is read only by the first
branch). -/
def getPriceState (signal volatility : ℚ) : String :=
  if signal > 0.8 ∧ volatility < 0.5 then "UPTRENDSTRONG"
  else if signal > 0.65 then "UPTREND"
  else if signal > 0.35 ∧ signal < 0.65 then "NEUTRAL"
  else if signal < 0.35 then "DOWNTREND"
  else if signal < 0.2 then "DOWNTRENDSTRONG"
  else "NEUTRAL"

/-- The four ensemble weights of the `MotifEnsemble` class (motifs.ts). -/
structure Weights where
  trend : ℚ
  momentum : ℚ
  volatility : ℚ
  sentiment : ℚ
  deriving DecidableEq, Repr

/-- The constructor's initial weights (motifs.ts lines 256-261). -/
def initialWeights : Weights :=
  { trend := 0.35, momentum := 0.25, volatility := 0.20, sentiment := 0.20 }

/-- A `Partial<Record<MotifType, number>>` argument of `updateWeights`: each
motif's weight is optionally supplied. -/
structure WeightUpdate where
  trend : Option ℚ
  momentum : Option ℚ
  volatility : Option ℚ
  sentiment : Option ℚ
  deriving DecidableEq, Repr

/-- The `Object.assign(this.weights, updates)` merge step of
`updateWeights`. -/
def assignWeights (w : Weights) (u : WeightUpdate) : Weights :=
  { trend := u.trend.getD w.trend
    momentum := u.momentum.getD w.momentum
    volatility := u.volatility.getD w.volatility
    sentiment := u.sentiment.getD w.sentiment }

/-- Sum of the four weights (`Object.values(...).reduce((a, b) => a + b, 0)`). -/
def weightsSum (w : Weights) : ℚ := w.trend + w.momentum + w.volatility + w.sentiment

/-- The `MotifEnsemble.updateWeights` operation (motifs.ts lines 294-301):
merge the supplied entries, then divide every weight by the post-merge sum.
(When the sum is 0 the source produces NaN/Infinity weights; here the
division yields 0.) -/
def updateWeights (w : Weights) (u : WeightUpdate) : Weights :=
  let merged := assignWeights w u
  let sum := weightsSum merged
  { trend := merged.trend / sum
    momentum := merged.momentum / sum
    volatility := merged.volatility / sum
    sentiment := merged.sentiment / sum }

/-- A sequence of `updateWeights` calls. -/
def applyWeightUpdates (w : Weights) (updates : List WeightUpdate) : Weights :=
  updates.foldl updateWeights w

/-- An optionally-supplied weight value is nonnegative if present. -/
def optNonneg : Option ℚ → Prop
  | none => True
  | some x => 0 ≤ x

/-- All values supplied by a weight update are nonnegative. -/
def updNonneg (u : WeightUpdate) : Prop :=
  optNonneg u.trend ∧ optNonneg u.momentum ∧ optNonneg u.volatility ∧ optNonneg u.sentiment

/-- All four weights are nonnegative. -/
def wNonneg (w : Weights) : Prop :=
  0 ≤ w.trend ∧ 0 ≤ w.momentum ∧ 0 ≤ w.volatility ∧ 0 ≤ w.sentiment

/-- A well-behaved `updateWeights` call sequence: every supplied value is
nonnegative and the post-merge sum is positive at every step. -/
def goodSeq (w : Weights) : List WeightUpdate → Prop
  | [] => True
  | u :: rest =>
    updNonneg u ∧ 0 < weightsSum (assignWeights w u) ∧ goodSeq (updateWeights w u) rest

/-- The `IndicatorValues` interface (indicators module): every indicator may
be `undefined`. -/
structure IndicatorValues where
  ema20 : Option ℚ
  ema50 : Option ℚ
  macdLine : Option ℚ
  macdSignal : Option ℚ
  macdHistogram : Option ℚ
  rsi14 : Option ℚ
  bollingerUpper : Option ℚ
  bollingerMiddle : Option ℚ
  bollingerLower : Option ℚ
  atr14 : Option ℚ
  stochasticK : Option ℚ
  stochasticD : Option ℚ
  deriving DecidableEq, Repr

/-- The parts of the `MarketData` record that `analyzeAndDecide` reads: the
current price and the indicator values (the raw OHLCV arrays and the order
book are carried along by the source but never read by the ensemble). -/
structure MarketData where
  currentPrice : ℚ
  indicators : IndicatorValues
  deriving DecidableEq, Repr

/-- The `calculateVolatilityScore` helper (indicators module): falsy ATR or
Bollinger width give a neutral 0.5, otherwise `min((atr/price·100)/5, 1)`. -/
def calculateVolatilityScore (atr : Option ℚ) (price : ℚ) (bollingerWidth : Option ℚ) : ℚ :=
  match atr, bollingerWidth with
  | some a, some w =>
    if a = 0 ∨ w = 0 then 0.5
    else min (a / price * 100 / 5) 1
  | _, _ => 0.5

/-- The `TrendMotif.calculateSignal` body (motifs.ts lines 45-72): EMA
alignment buckets, MACD-histogram nudge, clamp to [0,1]. A falsy (absent or
zero) EMA returns neutral 0.5. -/
def trendCalculateSignal (ind : IndicatorValues) (price : ℚ) : ℚ :=
  match ind.ema20, ind.ema50 with
  | some e20, some e50 =>
    if e20 = 0 ∨ e50 = 0 then 0.5
    else
      let signal : ℚ :=
        if e20 > e50 ∧ price > e20 then 0.8 + (if e20 > price then 0.2 else 0)
        else if ¬e20 > e50 ∧ ¬price > e20 then 0.2 - (if e20 < price then 0.2 else 0)
        else if e20 > e50 then 0.6
        else 0.4
      let signal2 : ℚ :=
        match ind.macdHistogram with
        | some h =>
          let s1 := if h > 0 ∧ signal > 0.5 then signal + 0.05 else signal
          if h < 0 ∧ s1 < 0.5 then s1 - 0.05 else s1
        | none => signal
      min (max signal2 0) 1
  | _, _ => 0.5

/-- The `TrendMotif.calculateConfidence` body (motifs.ts lines 74-79). -/
def trendCalculateConfidence (ind : IndicatorValues) : ℚ :=
  let c1 : ℚ := 0.5 + (if qTruthy ind.ema20 ∧ qTruthy ind.ema50 then 0.3 else 0)
  let c2 : ℚ := c1 + (if ind.macdHistogram.isSome then 0.2 else 0)
  min c2 1

/-- The `MomentumMotif.calculateSignal` body (motifs.ts lines 103-130): RSI
buckets blended 70/30 with the normalized stochastic average. -/
def momentumCalculateSignal (ind : IndicatorValues) : ℚ :=
  let signal : ℚ :=
    match ind.rsi14 with
    | some r =>
      if r > 70 then 0.7
      else if r > 60 then 0.65
      else if r > 50 then 0.55
      else if r > 40 then 0.45
      else if r > 30 then 0.35
      else 0.3
    | none => 0.5
  let signal2 : ℚ :=
    match ind.stochasticK, ind.stochasticD with
    | some k, some d => signal * 0.7 + (k + d) / 200 * 0.3
    | _, _ => signal
  min (max signal2 0) 1

/-- The `MomentumMotif.calculateConfidence` body (motifs.ts lines 132-137). -/
def momentumCalculateConfidence (ind : IndicatorValues) : ℚ :=
  let c1 : ℚ := 0.3 + (if ind.rsi14.isSome then 0.4 else 0)
  let c2 : ℚ := c1 + (if ind.stochasticK.isSome then 0.2 else 0)
  min c2 1

/-- The `VolatilityMotif.calculateSignal` body (motifs.ts lines 163-178):
volatility score dampened around neutral. A falsy ATR returns 0.5; the
Bollinger width is passed only when both bands are truthy. -/
def volatilityCalculateSignal (ind : IndicatorValues) (price : ℚ) : ℚ :=
  match ind.atr14 with
  | some a =>
    if a = 0 then 0.5
    else
      let bollingerWidth : Option ℚ :=
        match ind.bollingerUpper, ind.bollingerLower with
        | some u, some l => if u = 0 ∨ l = 0 then none else some (u - l)
        | _, _ => none
      let volatilityScore := calculateVolatilityScore ind.atr14 price bollingerWidth
      let signal := 0.5 + (volatilityScore - 0.5) * 0.3
      min (max signal 0) 1
  | none => 0.5

/-- The `VolatilityMotif.calculateConfidence` body (motifs.ts lines 180-185). -/
def volatilityCalculateConfidence (ind : IndicatorValues) : ℚ :=
  let c1 : ℚ := 0.4 + (if qTruthy ind.atr14 then 0.3 else 0)
  let c2 : ℚ := c1 + (if qTruthy ind.bollingerUpper then 0.3 else 0)
  min c2 1

/-- The `SentimentMotif.calculateSignal` body (motifs.ts lines 211-223):
price-change tanh squashing blended 60/40 with the cached sentiment score
(a falsy cache entry defaults to 0.5). `Math.tanh` is the abstracted `tanh`
parameter. -/
def sentimentCalculateSignal (tanh : ℚ → ℚ) (cache : List (String × ℚ))
    (symbol : String) (priceHistory : List ℚ) : ℚ :=
  if priceHistory.length < 2 then 0.5
  else
    let priceChange := (priceHistory.getLastD 0 - priceHistory.headD 0) / priceHistory.headD 0
    let sentimentScore := 0.5 + tanh (priceChange * 10) * 0.3
    let cachedSentiment : ℚ :=
      match mapGet cache symbol with
      | some c => if c = 0 then 0.5 else c
      | none => 0.5
    let blended := sentimentScore * 0.6 + cachedSentiment * 0.4
    min (max blended 0) 1

/-- The `SentimentMotif.calculateConfidence` body (motifs.ts lines 225-228). -/
def sentimentCalculateConfidence (priceHistory : List ℚ) : ℚ :=
  min (0.3 + (priceHistory.length : ℚ) / 100 * 0.3) 0.7

/-- The `MotifEnsemble.analyze` aggregation (motifs.ts lines 264-292): the
four motif signals and confidences combined by the current weights; the
signal clamped to [0,1]. Returns `(signal, confidence)` (the per-motif
diagnostic list is omitted). -/
def ensembleAnalyze (tanh : ℚ → ℚ) (w : Weights) (cache : List (String × ℚ))
    (ind : IndicatorValues) (price : ℚ) (symbol : String) (priceHistory : List ℚ) : ℚ × ℚ :=
  let weightedSignal :=
    trendCalculateSignal ind price * w.trend +
    momentumCalculateSignal ind * w.momentum +
    volatilityCalculateSignal ind price * w.volatility +
    sentimentCalculateSignal tanh cache symbol priceHistory * w.sentiment
  let averageConfidence :=
    trendCalculateConfidence ind * w.trend +
    momentumCalculateConfidence ind * w.momentum +
    volatilityCalculateConfidence ind * w.volatility +
    sentimentCalculateConfidence priceHistory * w.sentiment
  (min (max weightedSignal 0) 1, averageConfidence)

/-- The `TradeDecision.action` values of strategy-engine.ts. -/
inductive TradeAction
  | LONG
  | SHORT
  | NEUTRAL
  | CLOSE_POSITION
  deriving DecidableEq, Repr

/-- A trade decision as pushed onto the engine's decision log (the `motifs`
diagnostic list and the `reasoning` log string are omitted). -/
structure TradeDecision where
  symbol : String
  signal : ℚ
  confidence : ℚ
  action : TradeAction
  timestamp : ℤ
  deriving DecidableEq, Repr

/-- The mutable state of the `StrategyEngine` together with the state of its
owned collaborators: the motif-ensemble weights and sentiment cache, the risk
manager (position book, balance, history), the per-symbol rolling price
history, the decision log, and the adaptive-learning state (Bayesian
counters, Markov transition counts, Q-table). -/
structure EngineState where
  weights : Weights
  sentimentCache : List (String × ℚ)
  riskManager : RMState
  priceHistory : List (String × List ℚ)
  decisions : List TradeDecision
  bayesian : BLState
  markovTransitions : List ((String × String) × ℕ)
  qValues : List ((String × String) × ℚ)

/-- The `StrategyEngine.analyzeAndDecide` cycle (strategy-engine.ts lines
46-123), with the market-data collaborator's result passed in as `md`
(`none` models `fetchMarketData` returning null). On `none` the source logs
and returns null before touching any state. On `some` it pushes the price
into the rolling history (FIFO-trimmed to 200), runs the ensemble, classifies
the action by the signal/confidence thresholds, overrides to CLOSE_POSITION
on a reversal against the first open position, and appends the decision to
the log. -/
def analyzeAndDecide (tanh : ℚ → ℚ) (now : ℤ) (s : EngineState) (symbol : String)
    (md : Option MarketData) : Option TradeDecision × EngineState :=
  match md with
  | none => (none, s)
  | some m =>
    let history0 := (mapGet s.priceHistory symbol).getD []
    let history1 := history0 ++ [m.currentPrice]
    let history2 := if history1.length > 200 then history1.drop 1 else history1
    let er := ensembleAnalyze tanh s.weights s.sentimentCache m.indicators m.currentPrice symbol history2
    let signal := er.1
    let confidence := er.2
    let action0 : TradeAction :=
      if signal > 0.58 ∧ confidence > 0.4 then TradeAction.LONG
      else if signal < 0.42 ∧ confidence > 0.4 then TradeAction.SHORT
      else if signal > 0.52 ∧ signal ≤ 0.58 then TradeAction.LONG
      else if signal < 0.48 ∧ signal ≥ 0.42 then TradeAction.SHORT
      else TradeAction.NEUTRAL
    let action : TradeAction :=
      match s.riskManager.portfolio with
      | [] => action0
      | (_, p) :: _ =>
        if action0 ≠ TradeAction.NEUTRAL ∧
            ((action0 = TradeAction.LONG ∧ p.side = Side.SHORT) ∨
             (action0 = TradeAction.SHORT ∧ p.side = Side.LONG)) then
          TradeAction.CLOSE_POSITION
        else action0
    let decision : TradeDecision :=
      { symbol := symbol, signal := signal, confidence := confidence,
        action := action, timestamp := now }
    (some decision,
     { s with
       priceHistory := mapSet s.priceHistory symbol history2,
       decisions := s.decisions ++ [decision] })

/-- A concrete open LONG position (entry 100, quantity 1, stop 95, take
profit 110) used as a fixture in concrete runs. -/
def samplePosition : Position :=
  { symbol := "B", side := Side.LONG, entryPrice := 100, quantity := 1,
    stopLoss := 95, takeProfit := 110, riskAmount := 5, potentialReward := 10,
    riskRewardRatio := 2, createdAt := 0, initialSignal := some 0.7,
    dynamicStop := some 95, lastAtr := none, trailingStopPrice := none,
    highestPrice := none, lowestPrice := none, partialClosedQuantity := none }

/-- The same fixture with quantity 10 (riskAmount scaled accordingly). -/
def samplePosition10 : Position :=
  { samplePosition with quantity := 10, riskAmount := 50, potentialReward := 100 }

/-- A risk-manager state holding `samplePosition` in its book. -/
def sampleBook : RMState :=
  { initialRMState 10000 with portfolio := [(("B", 0), samplePosition)] }

/-- A risk-manager state holding `samplePosition10` in its book. -/
def sampleBook10 : RMState :=
  { initialRMState 10000 with portfolio := [(("B", 0), samplePosition10)] }

theorem mapGet_mapSet {K V : Type} [DecidableEq K] (m : List (K × V)) (k : K) (v : V) :
    mapGet (mapSet m k v) k = some v := by
  induction m with
  | nil => simp [mapSet, mapGet]
  | cons hd tl ih =>
    obtain ⟨k0, v0⟩ := hd
    by_cases h : k0 = k
    · simp [mapSet, mapGet, h]
    · simp [mapSet, mapGet, h, ih]

theorem mapGet_eq_none_of_not_mem {K V : Type} [DecidableEq K] (m : List (K × V)) (k : K)
    (h : k ∉ m.map Prod.fst) : mapGet m k = none := by
  induction m with
  | nil => rfl
  | cons hd tl ih =>
    obtain ⟨k0, v0⟩ := hd
    simp only [List.map_cons, List.mem_cons, not_or] at h
    have hne : ¬k0 = k := fun e => h.1 e.symm
    simp only [mapGet]
    rw [if_neg hne]
    exact ih h.2

theorem mapGet_mapDelete_self {K V : Type} [DecidableEq K] (m : List (K × V)) (k : K)
    (h : (m.map Prod.fst).Nodup) : mapGet (mapDelete m k) k = none := by
  induction m with
  | nil => rfl
  | cons hd tl ih =>
    obtain ⟨k0, v0⟩ := hd
    simp only [List.map_cons, List.nodup_cons] at h
    by_cases e : k0 = k
    · subst e
      simp only [mapDelete, if_pos rfl]
      exact mapGet_eq_none_of_not_mem tl k0 h.1
    · simp only [mapDelete, if_neg e, mapGet, if_neg e]
      exact ih h.2

/-- C10: for every signal and volatility, `getPriceState` never returns
DOWNTRENDSTRONG (the `signal < 0.35` branch fires before `signal < 0.2` can),
and its result is always one of UPTRENDSTRONG, UPTREND, NEUTRAL, DOWNTREND.
Proved for all rational arguments, in particular for signals in [0,1]. -/
theorem getPriceState_never_downtrendstrong (signal volatility : ℚ) :
    getPriceState signal volatility ≠ "DOWNTRENDSTRONG" ∧
    (getPriceState signal volatility = "UPTRENDSTRONG" ∨
     getPriceState signal volatility = "UPTREND" ∨
     getPriceState signal volatility = "NEUTRAL" ∨
     getPriceState signal volatility = "DOWNTREND") := by
  unfold getPriceState
  split_ifs with h1 h2 h3 h4 h5
  · exact ⟨by decide, Or.inl rfl⟩
  · exact ⟨by decide, Or.inr (Or.inl rfl)⟩
  · exact ⟨by decide, Or.inr (Or.inr (Or.inl rfl))⟩
  · exact ⟨by decide, Or.inr (Or.inr (Or.inr rfl))⟩
  · exact absurd (lt_trans h5 (by norm_num)) h4
  · exact ⟨by decide, Or.inr (Or.inr (Or.inl rfl))⟩

/-- C9: when the market-data collaborator returns null, `analyzeAndDecide`
returns a null decision and the whole engine state — in particular the
position book, the ensemble weights, the Q-table and the per-symbol price
history — is unchanged. -/
theorem analyzeAndDecide_skip_on_no_data (tanh : ℚ → ℚ) (now : ℤ) (s : EngineState) (symbol : String) :
    analyzeAndDecide tanh now s symbol none = (none, s) ∧
    (analyzeAndDecide tanh now s symbol none).2.riskManager.portfolio = s.riskManager.portfolio ∧
    (analyzeAndDecide tanh now s symbol none).2.weights = s.weights ∧
    (analyzeAndDecide tanh now s symbol none).2.qValues = s.qValues ∧
    (analyzeAndDecide tanh now s symbol none).2.priceHistory = s.priceHistory :=
  ⟨rfl, rfl, rfl, rfl, rfl⟩

theorem round8_eq_of_bounds (x y : ℚ) (z : ℤ) (hy : (z : ℚ) / 100000000 = y)
    (h1 : (z : ℚ) ≤ x * 100000000 + 1 / 2) (h2 : x * 100000000 + 1 / 2 < z + 1) :
    round8 x = y := by
  unfold round8
  rw [show ⌊x * 100000000 + 1 / 2⌋ = z from Int.floor_eq_iff.mpr ⟨h1, by exact_mod_cast h2⟩, hy]

/-- C7 counterexample: because of the `parseFloat(toFixed(8))` step,
`calculateTakeProfit(0, 3, 1/7)` is not `0 + (−1)·(|0−3|·(1/7)) = −3/7`
(the returned value is the 8-decimal rounding −0.42857143). -/
theorem calculateTakeProfit_rounding_ce :
    calculateTakeProfit 0 3 (1 / 7) ≠
      0 + (if (0 : ℚ) > 3 then 1 else -1) * (|(0 : ℚ) - 3| * (1 / 7)) := by
  have habs : |(0 : ℚ) - 3| = 3 := by
    rw [abs_of_nonpos (by norm_num)]
    norm_num
  have hval : calculateTakeProfit 0 3 (1 / 7) = round8 (-(3 / 7)) := by
    unfold calculateTakeProfit
    rw [habs, if_neg (by norm_num)]
    norm_num
  have hr : round8 (-(3 / 7) : ℚ) = -42857143 / 100000000 :=
    round8_eq_of_bounds _ _ (-42857143) (by norm_num) (by norm_num) (by norm_num)
  rw [hval, hr, habs, if_neg (by norm_num)]
  norm_num

/-- C7 (amended): `calculateTakeProfit` returns
`entry + direction·(|entry−stopLoss|·ratio)` rounded to 8 decimal places,
with direction +1 iff `entry > stopLoss`; on 8-decimal-representable results,
in particular `calculateTakeProfit(100, 98, 2.5) = 105`, the rounding is the
identity and the formula holds exactly. -/
theorem calculateTakeProfit_formula :
    (∀ entryPrice stopLoss riskRewardRatio : ℚ,
      calculateTakeProfit entryPrice stopLoss riskRewardRatio =
        round8 (entryPrice + (if entryPrice > stopLoss then 1 else -1) *
          (|entryPrice - stopLoss| * riskRewardRatio))) ∧
    calculateTakeProfit 100 98 2.5 = 105 := by
  constructor
  · intro entryPrice stopLoss riskRewardRatio
    rfl
  · have habs : |(100 : ℚ) - 98| = 2 := by
      rw [abs_of_nonneg (by norm_num)]
      norm_num
    have hval : calculateTakeProfit 100 98 2.5 = round8 105 := by
      unfold calculateTakeProfit
      rw [habs, if_pos (by norm_num)]
      norm_num
    rw [hval]
    exact round8_eq_of_bounds _ _ 10500000000 (by norm_num) (by norm_num) (by norm_num)

/-- C4 counterexample: a single `updateWeights` call with the arbitrary
partial update `{trend: -1}` from the initial weights leaves the momentum
weight negative (0.25 / (−0.35) = −5/7), falsifying "every weight ≥ 0 after
each call". -/
theorem updateWeights_negative_ce :
    (updateWeights initialWeights
      { trend := some (-1), momentum := none, volatility := none, sentiment := none }).momentum < 0 := by
  norm_num [updateWeights, assignWeights, weightsSum, initialWeights]

theorem validateTrade_eq_true (s : RMState) (entryPrice stopLoss takeProfit quantity signal : ℚ) :
    validateTrade s entryPrice stopLoss takeProfit quantity signal = true ↔
      ¬(entryPrice * quantity > s.accountBalance * 0.1) ∧
      ¬(|takeProfit - entryPrice| < s.riskRewardRatioMin * |entryPrice - stopLoss|) ∧
      ¬(signal > 0.5 ∧ stopLoss > entryPrice) ∧
      ¬(signal < 0.5 ∧ stopLoss < entryPrice) ∧
      ¬(totalRisk s > s.accountBalance * s.maxTotalRisk) := by
  unfold validateTrade
  split_ifs <;> simp_all

/-- C1 counterexample: from a fresh account with balance 10000 (risk cap
10% = 1000), opening a SHORT with entry 100, stop 250, take-profit −95,
quantity 10 and signal 0.3 succeeds — `validateTrade` only checks the risk of
the positions already in the book (0 here) — although the resulting total
open risk is |100−250|·10 = 1500 > 1000. -/
theorem openPosition_exceeds_cap_ce :
    (openPosition (initialRMState 10000) "X" 100 10 250 (-95) 0.3 0).1 ≠ none ∧
    totalRisk (openPosition (initialRMState 10000) "X" 100 10 250 (-95) 0.3 0).2 >
      (openPosition (initialRMState 10000) "X" 100 10 250 (-95) 0.3 0).2.accountBalance *
        (openPosition (initialRMState 10000) "X" 100 10 250 (-95) 0.3 0).2.maxTotalRisk := by
  have habs1 : |(100 : ℚ) - 250| = 150 := by
    rw [abs_of_nonpos (by norm_num)]
    norm_num
  have habs2 : |(-95 : ℚ) - 100| = 195 := by
    rw [abs_of_nonpos (by norm_num)]
    norm_num
  have hval : validateTrade (initialRMState 10000) 100 250 (-95) 10 0.3 = true := by
    rw [validateTrade_eq_true]
    rw [habs1, habs2]
    unfold totalRisk initialRMState
    norm_num
  constructor
  · simp only [openPosition, hval, if_true]
    simp
  · simp only [openPosition, hval, if_true]
    unfold totalRisk initialRMState
    simp only [mapSet]
    rw [habs1]
    norm_num

/-- C1 (amended): `openPosition` never succeeds when the total open risk of
the positions already in the book (before the new position is counted)
exceeds balance × maxTotalRisk; the state is returned unchanged. The check
excludes the risk of the position being opened, so the post-open total may
exceed the cap (see the counterexample). -/
theorem openPosition_preexisting_risk_cap (s : RMState) (symbol : String)
    (entryPrice quantity stopLoss takeProfit signal : ℚ) (now : ℤ)
    (h : totalRisk s > s.accountBalance * s.maxTotalRisk) :
    openPosition s symbol entryPrice quantity stopLoss takeProfit signal now = (none, s) := by
  have hval : validateTrade s entryPrice stopLoss takeProfit quantity signal = false := by
    cases hb : validateTrade s entryPrice stopLoss takeProfit quantity signal with
    | false => rfl
    | true =>
      exact absurd h ((validateTrade_eq_true s entryPrice stopLoss takeProfit quantity signal).mp hb).2.2.2.2
  simp only [openPosition, hval]
  simp

/-- C1 witness: a concrete book already carrying 2000 of open risk against a
10000 balance (cap 1000) rejects a well-formed LONG request. -/
theorem openPosition_preexisting_risk_cap_witness :
    totalRisk
        { initialRMState 10000 with
          portfolio := [(("B", 0),
            { symbol := "B", side := Side.LONG, entryPrice := 100, quantity := 20,
              stopLoss := 0, takeProfit := 200, riskAmount := 2000, potentialReward := 2000,
              riskRewardRatio := 1, createdAt := 0, initialSignal := none, dynamicStop := none,
              lastAtr := none, trailingStopPrice := none, highestPrice := none,
              lowestPrice := none, partialClosedQuantity := none })] } >
      ({ initialRMState 10000 with
          portfolio := [(("B", 0),
            { symbol := "B", side := Side.LONG, entryPrice := 100, quantity := 20,
              stopLoss := 0, takeProfit := 200, riskAmount := 2000, potentialReward := 2000,
              riskRewardRatio := 1, createdAt := 0, initialSignal := none, dynamicStop := none,
              lastAtr := none, trailingStopPrice := none, highestPrice := none,
              lowestPrice := none, partialClosedQuantity := none })] } : RMState).accountBalance *
        ({ initialRMState 10000 with
          portfolio := [(("B", 0),
            { symbol := "B", side := Side.LONG, entryPrice := 100, quantity := 20,
              stopLoss := 0, takeProfit := 200, riskAmount := 2000, potentialReward := 2000,
              riskRewardRatio := 1, createdAt := 0, initialSignal := none, dynamicStop := none,
              lastAtr := none, trailingStopPrice := none, highestPrice := none,
              lowestPrice := none, partialClosedQuantity := none })] } : RMState).maxTotalRisk ∧
    openPosition
        { initialRMState 10000 with
          portfolio := [(("B", 0),
            { symbol := "B", side := Side.LONG, entryPrice := 100, quantity := 20,
              stopLoss := 0, takeProfit := 200, riskAmount := 2000, potentialReward := 2000,
              riskRewardRatio := 1, createdAt := 0, initialSignal := none, dynamicStop := none,
              lastAtr := none, trailingStopPrice := none, highestPrice := none,
              lowestPrice := none, partialClosedQuantity := none })] }
        "Y" 100 1 98 105 0.7 1 =
      (none,
        { initialRMState 10000 with
          portfolio := [(("B", 0),
            { symbol := "B", side := Side.LONG, entryPrice := 100, quantity := 20,
              stopLoss := 0, takeProfit := 200, riskAmount := 2000, potentialReward := 2000,
              riskRewardRatio := 1, createdAt := 0, initialSignal := none, dynamicStop := none,
              lastAtr := none, trailingStopPrice := none, highestPrice := none,
              lowestPrice := none, partialClosedQuantity := none })] }) := by
  have hrisk : totalRisk
      { initialRMState 10000 with
        portfolio := [(("B", 0),
          { symbol := "B", side := Side.LONG, entryPrice := 100, quantity := 20,
            stopLoss := 0, takeProfit := 200, riskAmount := 2000, potentialReward := 2000,
            riskRewardRatio := 1, createdAt := 0, initialSignal := none, dynamicStop := none,
            lastAtr := none, trailingStopPrice := none, highestPrice := none,
            lowestPrice := none, partialClosedQuantity := none })] } >
      (10000 : ℚ) * 0.10 := by
    unfold totalRisk
    norm_num
  exact ⟨by simpa [initialRMState] using hrisk,
    openPosition_preexisting_risk_cap _ "Y" 100 1 98 105 0.7 1 (by simpa [initialRMState] using hrisk)⟩

/-- C2 counterexample: with a fresh 10000 account, a LONG request (signal
0.7) with entry 100, stopLoss 100 (not above entry, so the side check
passes; zero risk, so the ratio check passes as in the source, where the
Infinity ratio is never below the minimum) and takeProfit 90 succeeds; the
created LONG position has stopLoss = entryPrice and takeProfit < entryPrice,
falsifying stopLoss < entryPrice < takeProfit. -/
theorem openPosition_stop_direction_ce :
    (openPosition (initialRMState 10000) "X" 100 1 100 90 0.7 0).1 =
      some
        { symbol := "X", side := Side.LONG, entryPrice := 100, quantity := 1,
          stopLoss := 100, takeProfit := 90, riskAmount := 0, potentialReward := 10,
          riskRewardRatio := 0, createdAt := 0, initialSignal := some 0.7,
          dynamicStop := some 100, lastAtr := none, trailingStopPrice := none,
          highestPrice := none, lowestPrice := none, partialClosedQuantity := none } ∧
    ¬((100 : ℚ) < 100 ∧ (100 : ℚ) < 90) := by
  have habs0 : |(100 : ℚ) - 100| = 0 := by norm_num
  have habs10 : |(90 : ℚ) - 100| = 10 := by
    rw [abs_of_nonpos (by norm_num)]
    norm_num
  have hval : validateTrade (initialRMState 10000) 100 100 90 1 0.7 = true := by
    rw [validateTrade_eq_true]
    rw [habs0, habs10]
    unfold totalRisk initialRMState
    norm_num
  refine ⟨?_, by norm_num⟩
  simp only [openPosition, hval, if_true]
  rw [habs0, habs10]
  norm_num

/-- C2 (amended): every position `openPosition` creates has its stop on the
correct (weak) side: a LONG position has stopLoss ≤ entryPrice, and a SHORT
position opened from a signal strictly below 0.5 has stopLoss ≥ entryPrice.
Equality is possible (the check is strict in the source), the takeProfit is
not constrained to the profit side, and a signal of exactly 0.5 opens a
SHORT with no stop-side check at all. -/
theorem openPosition_stop_side (s : RMState) (symbol : String)
    (entryPrice quantity stopLoss takeProfit signal : ℚ) (now : ℤ)
    (p : Position) (s2 : RMState)
    (h : openPosition s symbol entryPrice quantity stopLoss takeProfit signal now = (some p, s2)) :
    (p.side = Side.LONG → p.stopLoss ≤ p.entryPrice) ∧
    (p.side = Side.SHORT → signal < 0.5 → p.entryPrice ≤ p.stopLoss) := by
  unfold openPosition at h
  cases hb : validateTrade s entryPrice stopLoss takeProfit quantity signal with
  | false => rw [hb] at h; simp at h
  | true =>
    rw [hb] at h
    simp only [if_true] at h
    injection h with hfst hsnd
    injection hfst with hrec
    have hcond := (validateTrade_eq_true s entryPrice stopLoss takeProfit quantity signal).mp hb
    obtain ⟨-, -, h3, h4, -⟩ := hcond
    subst hrec
    dsimp only
    constructor
    · intro hside
      by_cases hsig : signal > 0.5
      · by_contra hlt
        push_neg at hlt
        exact h3 ⟨hsig, hlt⟩
      · rw [if_neg hsig] at hside
        exact absurd hside (by simp)
    · intro _ hsig
      by_contra hlt
      push_neg at hlt
      exact h4 ⟨hsig, hlt⟩

/-- C2 witness: a well-formed LONG open (entry 100, stop 98, take-profit
105, signal 0.7) succeeds and its stop satisfies stopLoss ≤ entryPrice. -/
theorem openPosition_stop_side_witness :
    openPosition (initialRMState 10000) "W" 100 1 98 105 0.7 3 =
      (some
        { symbol := "W", side := Side.LONG, entryPrice := 100, quantity := 1,
          stopLoss := 98, takeProfit := 105, riskAmount := 2, potentialReward := 5,
          riskRewardRatio := 5 / 2, createdAt := 3, initialSignal := some 0.7,
          dynamicStop := some 98, lastAtr := none, trailingStopPrice := none,
          highestPrice := none, lowestPrice := none, partialClosedQuantity := none },
       { initialRMState 10000 with
         portfolio := [(("W", 3),
          { symbol := "W", side := Side.LONG, entryPrice := 100, quantity := 1,
            stopLoss := 98, takeProfit := 105, riskAmount := 2, potentialReward := 5,
            riskRewardRatio := 5 / 2, createdAt := 3, initialSignal := some 0.7,
            dynamicStop := some 98, lastAtr := none, trailingStopPrice := none,
            highestPrice := none, lowestPrice := none, partialClosedQuantity := none })] }) ∧
    ((98 : ℚ) ≤ 100) := by
  have habs2 : |(100 : ℚ) - 98| = 2 := by
    rw [abs_of_nonneg (by norm_num)]
    norm_num
  have habs5 : |(105 : ℚ) - 100| = 5 := by
    rw [abs_of_nonneg (by norm_num)]
    norm_num
  have hval : validateTrade (initialRMState 10000) 100 98 105 1 0.7 = true := by
    rw [validateTrade_eq_true]
    rw [habs2, habs5]
    unfold totalRisk initialRMState
    norm_num
  have hopen : openPosition (initialRMState 10000) "W" 100 1 98 105 0.7 3 =
      (some
        { symbol := "W", side := Side.LONG, entryPrice := 100, quantity := 1,
          stopLoss := 98, takeProfit := 105, riskAmount := 2, potentialReward := 5,
          riskRewardRatio := 5 / 2, createdAt := 3, initialSignal := some 0.7,
          dynamicStop := some 98, lastAtr := none, trailingStopPrice := none,
          highestPrice := none, lowestPrice := none, partialClosedQuantity := none },
       { initialRMState 10000 with
         portfolio := [(("W", 3),
          { symbol := "W", side := Side.LONG, entryPrice := 100, quantity := 1,
            stopLoss := 98, takeProfit := 105, riskAmount := 2, potentialReward := 5,
            riskRewardRatio := 5 / 2, createdAt := 3, initialSignal := some 0.7,
            dynamicStop := some 98, lastAtr := none, trailingStopPrice := none,
            highestPrice := none, lowestPrice := none, partialClosedQuantity := none })] }) := by
    simp only [openPosition, hval, if_true]
    rw [habs2, habs5]
    norm_num [initialRMState, mapSet]
  refine ⟨hopen, ?_⟩
  have := (openPosition_stop_side (initialRMState 10000) "W" 100 1 98 105 0.7 3 _ _ hopen).1 rfl
  simpa using this

theorem optNonneg_getD {o : Option ℚ} {w : ℚ} (ho : optNonneg o) (hw : 0 ≤ w) :
    0 ≤ o.getD w := by
  cases o with
  | none => simpa using hw
  | some x => simpa using ho

theorem updateWeights_step (w : Weights) (u : WeightUpdate)
    (hw : wNonneg w) (hu : updNonneg u) (hs : 0 < weightsSum (assignWeights w u)) :
    weightsSum (updateWeights w u) = 1 ∧ wNonneg (updateWeights w u) := by
  obtain ⟨hw1, hw2, hw3, hw4⟩ := hw
  obtain ⟨hu1, hu2, hu3, hu4⟩ := hu
  have m1 : 0 ≤ (assignWeights w u).trend := optNonneg_getD hu1 hw1
  have m2 : 0 ≤ (assignWeights w u).momentum := optNonneg_getD hu2 hw2
  have m3 : 0 ≤ (assignWeights w u).volatility := optNonneg_getD hu3 hw3
  have m4 : 0 ≤ (assignWeights w u).sentiment := optNonneg_getD hu4 hw4
  have hsum : weightsSum (assignWeights w u) ≠ 0 := ne_of_gt hs
  constructor
  · show (assignWeights w u).trend / weightsSum (assignWeights w u) +
      (assignWeights w u).momentum / weightsSum (assignWeights w u) +
      (assignWeights w u).volatility / weightsSum (assignWeights w u) +
      (assignWeights w u).sentiment / weightsSum (assignWeights w u) = 1
    rw [div_add_div_same, div_add_div_same, div_add_div_same]
    exact div_self hsum
  · exact ⟨div_nonneg m1 hs.le, div_nonneg m2 hs.le, div_nonneg m3 hs.le, div_nonneg m4 hs.le⟩

/-- C4 (amended): for every sequence of `updateWeights` calls in which all
supplied weight values are nonnegative and the post-merge sum is positive at
every step, starting from nonnegative weights, after each call the four
weights sum to exactly 1 (hence within 1e-9) and every weight is ≥ 0. For
arbitrary partial updates the invariant fails: a negative supplied value can
make a weight negative (see the counterexample), and a zero post-merge sum
produces NaN weights in the source. -/
theorem updateWeights_nonneg_sum_one :
    ∀ (updates : List WeightUpdate) (u : WeightUpdate) (w : Weights),
      wNonneg w → goodSeq w (u :: updates) →
      weightsSum (applyWeightUpdates w (u :: updates)) = 1 ∧
      wNonneg (applyWeightUpdates w (u :: updates)) := by
  intro updates
  induction updates with
  | nil =>
    intro u w hw hg
    obtain ⟨hu, hs, -⟩ := hg
    simpa [applyWeightUpdates] using updateWeights_step w u hw hu hs
  | cons u2 rest ih =>
    intro u w hw hg
    obtain ⟨hu, hs, hg2⟩ := hg
    have step := updateWeights_step w u hw hu hs
    have hone : applyWeightUpdates w (u :: u2 :: rest) =
        applyWeightUpdates (updateWeights w u) (u2 :: rest) := rfl
    rw [hone]
    exact ih u2 (updateWeights w u) step.2 hg2

/-- C4 witness: the single-call sequence `updateWeights({trend: 0.5})` from
the initial weights is well-behaved (supplied value nonnegative, post-merge
sum 1.15 > 0) and afterwards the weights sum to 1 and are all nonnegative. -/
theorem updateWeights_nonneg_sum_one_witness :
    wNonneg initialWeights ∧
    goodSeq initialWeights [{ trend := some 0.5, momentum := none, volatility := none, sentiment := none }] ∧
    weightsSum (applyWeightUpdates initialWeights
      [{ trend := some 0.5, momentum := none, volatility := none, sentiment := none }]) = 1 ∧
    wNonneg (applyWeightUpdates initialWeights
      [{ trend := some 0.5, momentum := none, volatility := none, sentiment := none }]) := by
  have hw : wNonneg initialWeights := by
    refine ⟨?_, ?_, ?_, ?_⟩ <;> norm_num [initialWeights]
  have hg : goodSeq initialWeights
      [{ trend := some 0.5, momentum := none, volatility := none, sentiment := none }] := by
    refine ⟨⟨?_, ?_, ?_, ?_⟩, ?_, trivial⟩
    · show (0 : ℚ) ≤ 0.5
      norm_num
    · trivial
    · trivial
    · trivial
    · norm_num [weightsSum, assignWeights, initialWeights]
  exact ⟨hw, hg,
    (updateWeights_nonneg_sum_one []
      { trend := some 0.5, momentum := none, volatility := none, sentiment := none }
      initialWeights hw hg).1,
    (updateWeights_nonneg_sum_one []
      { trend := some 0.5, momentum := none, volatility := none, sentiment := none }
      initialWeights hw hg).2⟩

theorem updateTrailingStopPos_side (p : Position) (x a : ℚ) :
    (updateTrailingStopPos p x a).side = p.side := by
  cases hp : p.side <;>
    simp only [updateTrailingStopPos, hp, calculateTrailingStop] <;>
    split_ifs <;> rfl

theorem updateTrailingStopPos_stopLoss_long (p : Position) (x a : ℚ) (hp : p.side = Side.LONG) :
    p.stopLoss ≤ (updateTrailingStopPos p x a).stopLoss := by
  simp only [updateTrailingStopPos, hp, calculateTrailingStop]
  split_ifs
  · exact le_max_right _ _
  · exact le_refl _

theorem updateTrailingStopPos_stopLoss_short (p : Position) (x a : ℚ) (hp : p.side = Side.SHORT) :
    (updateTrailingStopPos p x a).stopLoss ≤ p.stopLoss := by
  simp only [updateTrailingStopPos, hp, calculateTrailingStop]
  split_ifs
  · exact min_le_right _ _
  · exact le_refl _

theorem applyTrailingCalls_side (calls : List (ℚ × ℚ)) :
    ∀ p : Position, (applyTrailingCalls p calls).side = p.side := by
  induction calls with
  | nil => intro p; rfl
  | cons c rest ih =>
    intro p
    have h1 : applyTrailingCalls p (c :: rest) =
        applyTrailingCalls (updateTrailingStopPos p c.1 c.2) rest := rfl
    rw [h1, ih, updateTrailingStopPos_side]

theorem applyTrailingCalls_stopLoss_long (calls : List (ℚ × ℚ)) :
    ∀ p : Position, p.side = Side.LONG →
      p.stopLoss ≤ (applyTrailingCalls p calls).stopLoss := by
  induction calls with
  | nil => intro p _; exact le_refl _
  | cons c rest ih =>
    intro p hp
    have hside : (updateTrailingStopPos p c.1 c.2).side = Side.LONG := by
      rw [updateTrailingStopPos_side, hp]
    calc p.stopLoss ≤ (updateTrailingStopPos p c.1 c.2).stopLoss :=
          updateTrailingStopPos_stopLoss_long p c.1 c.2 hp
      _ ≤ (applyTrailingCalls (updateTrailingStopPos p c.1 c.2) rest).stopLoss :=
          ih (updateTrailingStopPos p c.1 c.2) hside

theorem applyTrailingCalls_stopLoss_short (calls : List (ℚ × ℚ)) :
    ∀ p : Position, p.side = Side.SHORT →
      (applyTrailingCalls p calls).stopLoss ≤ p.stopLoss := by
  induction calls with
  | nil => intro p _; exact le_refl _
  | cons c rest ih =>
    intro p hp
    have hside : (updateTrailingStopPos p c.1 c.2).side = Side.SHORT := by
      rw [updateTrailingStopPos_side, hp]
    calc (applyTrailingCalls (updateTrailingStopPos p c.1 c.2) rest).stopLoss
        ≤ (updateTrailingStopPos p c.1 c.2).stopLoss :=
          ih (updateTrailingStopPos p c.1 c.2) hside
      _ ≤ p.stopLoss := updateTrailingStopPos_stopLoss_short p c.1 c.2 hp

/-- C3: over any sequence of `updateTrailingStop` calls with arbitrary price
and ATR arguments, a LONG position's stopLoss never moves down — each further
call only raises it and it never falls below the stop it started with (the
original hard stop) — and symmetrically a SHORT position's stopLoss never
moves up. -/
theorem trailingStop_monotone (p : Position) (calls : List (ℚ × ℚ)) (c : ℚ × ℚ) :
    (p.side = Side.LONG →
      p.stopLoss ≤ (applyTrailingCalls p calls).stopLoss ∧
      (applyTrailingCalls p calls).stopLoss ≤ (applyTrailingCalls p (calls ++ [c])).stopLoss) ∧
    (p.side = Side.SHORT →
      (applyTrailingCalls p calls).stopLoss ≤ p.stopLoss ∧
      (applyTrailingCalls p (calls ++ [c])).stopLoss ≤ (applyTrailingCalls p calls).stopLoss) := by
  have happ : applyTrailingCalls p (calls ++ [c]) =
      updateTrailingStopPos (applyTrailingCalls p calls) c.1 c.2 := by
    unfold applyTrailingCalls
    rw [List.foldl_append]
    rfl
  constructor
  · intro hp
    refine ⟨applyTrailingCalls_stopLoss_long calls p hp, ?_⟩
    rw [happ]
    exact updateTrailingStopPos_stopLoss_long _ c.1 c.2 (by rw [applyTrailingCalls_side, hp])
  · intro hp
    refine ⟨applyTrailingCalls_stopLoss_short calls p hp, ?_⟩
    rw [happ]
    exact updateTrailingStopPos_stopLoss_short _ c.1 c.2 (by rw [applyTrailingCalls_side, hp])

/-- C3 witness: a concrete LONG position with stop 95, trailed at prices 110
then 120 (ATR 5), keeps its stop non-decreasing and never below 95. -/
theorem trailingStop_monotone_witness :
    ({ symbol := "B", side := Side.LONG, entryPrice := 100, quantity := 1,
       stopLoss := 95, takeProfit := 110, riskAmount := 5, potentialReward := 10,
       riskRewardRatio := 2, createdAt := 0, initialSignal := none, dynamicStop := none,
       lastAtr := none, trailingStopPrice := none, highestPrice := none,
       lowestPrice := none, partialClosedQuantity := none } : Position).side = Side.LONG ∧
    ({ symbol := "B", side := Side.LONG, entryPrice := 100, quantity := 1,
       stopLoss := 95, takeProfit := 110, riskAmount := 5, potentialReward := 10,
       riskRewardRatio := 2, createdAt := 0, initialSignal := none, dynamicStop := none,
       lastAtr := none, trailingStopPrice := none, highestPrice := none,
       lowestPrice := none, partialClosedQuantity := none } : Position).stopLoss ≤
      (applyTrailingCalls
        { symbol := "B", side := Side.LONG, entryPrice := 100, quantity := 1,
          stopLoss := 95, takeProfit := 110, riskAmount := 5, potentialReward := 10,
          riskRewardRatio := 2, createdAt := 0, initialSignal := none, dynamicStop := none,
          lastAtr := none, trailingStopPrice := none, highestPrice := none,
          lowestPrice := none, partialClosedQuantity := none } [(110, 5)]).stopLoss ∧
    (applyTrailingCalls
        { symbol := "B", side := Side.LONG, entryPrice := 100, quantity := 1,
          stopLoss := 95, takeProfit := 110, riskAmount := 5, potentialReward := 10,
          riskRewardRatio := 2, createdAt := 0, initialSignal := none, dynamicStop := none,
          lastAtr := none, trailingStopPrice := none, highestPrice := none,
          lowestPrice := none, partialClosedQuantity := none } [(110, 5)]).stopLoss ≤
      (applyTrailingCalls
        { symbol := "B", side := Side.LONG, entryPrice := 100, quantity := 1,
          stopLoss := 95, takeProfit := 110, riskAmount := 5, potentialReward := 10,
          riskRewardRatio := 2, createdAt := 0, initialSignal := none, dynamicStop := none,
          lastAtr := none, trailingStopPrice := none, highestPrice := none,
          lowestPrice := none, partialClosedQuantity := none } ([(110, 5)] ++ [(120, 5)])).stopLoss :=
  ⟨rfl,
   ((trailingStop_monotone _ [(110, 5)] (120, 5)).1 rfl).1,
   ((trailingStop_monotone _ [(110, 5)] (120, 5)).1 rfl).2⟩

theorem closePosition_partial_step (s : RMState) (positionId : String × ℤ) (e q : ℚ) (p : Position)
    (hp : mapGet s.portfolio positionId = some p) (h0 : q ≠ 0) (hq : q < p.quantity) :
    closePosition s positionId e (some q) 0 =
      (some { positionId := positionId,
              pnl := (e - p.entryPrice) * q * (if p.side = Side.LONG then 1 else -1),
              pnlPercent := (e - p.entryPrice) * q * (if p.side = Side.LONG then 1 else -1) /
                (p.entryPrice * q) * 100,
              newBalance := s.accountBalance +
                (e - p.entryPrice) * q * (if p.side = Side.LONG then 1 else -1),
              fullyClosed := false },
       { s with
         accountBalance := s.accountBalance +
           (e - p.entryPrice) * q * (if p.side = Side.LONG then 1 else -1),
         portfolio := mapSet s.portfolio positionId
           { p with quantity := p.quantity - q,
                    partialClosedQuantity := some (p.partialClosedQuantity.getD 0 + q) } }) := by
  have hrem : ¬(p.quantity - q ≤ 0) := by
    intro hle
    exact absurd hq (by linarith)
  simp only [closePosition, hp]
  rw [if_neg h0, if_neg hrem]

theorem closePosition_full_step (s : RMState) (positionId : String × ℤ) (e q : ℚ) (p : Position)
    (hp : mapGet s.portfolio positionId = some p) (h0 : q ≠ 0) (hq : p.quantity ≤ q) :
    closePosition s positionId e (some q) 0 =
      (some { positionId := positionId,
              pnl := (e - p.entryPrice) * q * (if p.side = Side.LONG then 1 else -1),
              pnlPercent := (e - p.entryPrice) * q * (if p.side = Side.LONG then 1 else -1) /
                (p.entryPrice * q) * 100,
              newBalance := s.accountBalance +
                (e - p.entryPrice) * q * (if p.side = Side.LONG then 1 else -1),
              fullyClosed := true },
       { s with
         accountBalance := s.accountBalance +
           (e - p.entryPrice) * q * (if p.side = Side.LONG then 1 else -1),
         tradeHistory := s.tradeHistory ++
           [{ position := p, exitPrice := e,
              pnl := (e - p.entryPrice) * q * (if p.side = Side.LONG then 1 else -1),
              pnlPercent := (e - p.entryPrice) * q * (if p.side = Side.LONG then 1 else -1) /
                (p.entryPrice * q) * 100,
              closedAt := 0 }],
         portfolio := mapDelete s.portfolio positionId }) := by
  have hrem : p.quantity - q ≤ 0 := by linarith
  simp only [closePosition, hp]
  rw [if_neg h0, if_pos hrem]

theorem closePosition_zero_step (s : RMState) (positionId : String × ℤ) (e : ℚ) (p : Position)
    (hp : mapGet s.portfolio positionId = some p) :
    closePosition s positionId e (some 0) 0 =
      (some { positionId := positionId,
              pnl := (e - p.entryPrice) * p.quantity * (if p.side = Side.LONG then 1 else -1),
              pnlPercent := (e - p.entryPrice) * p.quantity * (if p.side = Side.LONG then 1 else -1) /
                (p.entryPrice * p.quantity) * 100,
              newBalance := s.accountBalance +
                (e - p.entryPrice) * p.quantity * (if p.side = Side.LONG then 1 else -1),
              fullyClosed := true },
       { s with
         accountBalance := s.accountBalance +
           (e - p.entryPrice) * p.quantity * (if p.side = Side.LONG then 1 else -1),
         tradeHistory := s.tradeHistory ++
           [{ position := p, exitPrice := e,
              pnl := (e - p.entryPrice) * p.quantity * (if p.side = Side.LONG then 1 else -1),
              pnlPercent := (e - p.entryPrice) * p.quantity * (if p.side = Side.LONG then 1 else -1) /
                (p.entryPrice * p.quantity) * 100,
              closedAt := 0 }],
         portfolio := mapDelete s.portfolio positionId }) := by
  have hrem : p.quantity - p.quantity ≤ 0 := by linarith
  simp only [closePosition, hp, eq_self_iff_true, if_true]
  rw [if_pos hrem]

/-- C6 counterexample: `closePosition(id, 105, 0)` on an open position of
quantity 1 — a `quantityToClose` strictly below the current quantity — does
NOT perform a partial close: the source's `quantityToClose || quantity`
treats 0 as absent, closes the full quantity, removes the position from the
book and reports `fullyClosed`. -/
theorem closePosition_zero_quantity_ce :
    (0 : ℚ) < samplePosition.quantity ∧
    Option.map CloseResult.fullyClosed (closePosition sampleBook ("B", 0) 105 (some 0) 0).1 =
      some true ∧
    mapGet (closePosition sampleBook ("B", 0) 105 (some 0) 0).2.portfolio ("B", 0) = none := by
  have hp : mapGet sampleBook.portfolio ("B", 0) = some samplePosition := by
    simp [sampleBook, mapGet]
  refine ⟨by norm_num [samplePosition], ?_, ?_⟩
  · rw [closePosition_zero_step sampleBook ("B", 0) 105 samplePosition hp]
    rfl
  · rw [closePosition_zero_step sampleBook ("B", 0) 105 samplePosition hp]
    simp [sampleBook, mapDelete, mapGet]

/-- C6 (amended): a `closePosition` call with a nonzero `quantityToClose`
strictly below the current quantity performs a partial close — the position
stays in the book with its quantity decremented by `quantityToClose` and
`partialClosedQuantity` incremented by it, nothing is appended to trade
history, and the result reports not fully closed. A call with
`quantityToClose` ≥ the current quantity, or equal to 0 (treated as absent
by the source's `||`), fully closes: the position snapshot is appended to
trade history, the key is removed from the book, and the result reports
fully closed. -/
theorem closePosition_partial_or_full (s : RMState) (positionId : String × ℤ) (e q : ℚ)
    (p : Position) (hnodup : (s.portfolio.map Prod.fst).Nodup)
    (hp : mapGet s.portfolio positionId = some p) :
    (q ≠ 0 → q < p.quantity →
      mapGet (closePosition s positionId e (some q) 0).2.portfolio positionId =
        some { p with quantity := p.quantity - q,
                      partialClosedQuantity := some (p.partialClosedQuantity.getD 0 + q) } ∧
      (closePosition s positionId e (some q) 0).2.tradeHistory = s.tradeHistory ∧
      Option.map CloseResult.fullyClosed (closePosition s positionId e (some q) 0).1 = some false) ∧
    (q ≠ 0 → p.quantity ≤ q →
      mapGet (closePosition s positionId e (some q) 0).2.portfolio positionId = none ∧
      (closePosition s positionId e (some q) 0).2.tradeHistory =
        s.tradeHistory ++
          [{ position := p, exitPrice := e,
             pnl := (e - p.entryPrice) * q * (if p.side = Side.LONG then 1 else -1),
             pnlPercent := (e - p.entryPrice) * q * (if p.side = Side.LONG then 1 else -1) /
               (p.entryPrice * q) * 100,
             closedAt := 0 }] ∧
      Option.map CloseResult.fullyClosed (closePosition s positionId e (some q) 0).1 = some true) ∧
    (q = 0 →
      mapGet (closePosition s positionId e (some q) 0).2.portfolio positionId = none ∧
      Option.map CloseResult.fullyClosed (closePosition s positionId e (some q) 0).1 = some true) := by
  refine ⟨?_, ?_, ?_⟩
  · intro h0 hq
    rw [closePosition_partial_step s positionId e q p hp h0 hq]
    exact ⟨mapGet_mapSet _ _ _, rfl, rfl⟩
  · intro h0 hq
    rw [closePosition_full_step s positionId e q p hp h0 hq]
    exact ⟨mapGet_mapDelete_self _ _ hnodup, rfl, rfl⟩
  · intro h0
    subst h0
    rw [closePosition_zero_step s positionId e p hp]
    exact ⟨mapGet_mapDelete_self _ _ hnodup, rfl⟩

/-- C6 witness: on the concrete book holding a quantity-10 position, closing
4 units at 103 leaves the position open with quantity 6 and
partialClosedQuantity 4, and appends nothing to the history. -/
theorem closePosition_partial_or_full_witness :
    (sampleBook10.portfolio.map Prod.fst).Nodup ∧
    mapGet sampleBook10.portfolio ("B", 0) = some samplePosition10 ∧
    (4 : ℚ) ≠ 0 ∧ (4 : ℚ) < samplePosition10.quantity ∧
    mapGet (closePosition sampleBook10 ("B", 0) 103 (some 4) 0).2.portfolio ("B", 0) =
      some { samplePosition10 with
             quantity := samplePosition10.quantity - 4,
             partialClosedQuantity :=
               some (samplePosition10.partialClosedQuantity.getD 0 + 4) } ∧
    (closePosition sampleBook10 ("B", 0) 103 (some 4) 0).2.tradeHistory =
      sampleBook10.tradeHistory ∧
    Option.map CloseResult.fullyClosed (closePosition sampleBook10 ("B", 0) 103 (some 4) 0).1 =
      some false := by
  have hnodup : (sampleBook10.portfolio.map Prod.fst).Nodup := by
    simp [sampleBook10]
  have hp : mapGet sampleBook10.portfolio ("B", 0) = some samplePosition10 := by
    simp [sampleBook10, mapGet]
  have h4 : (4 : ℚ) ≠ 0 := by norm_num
  have hlt : (4 : ℚ) < samplePosition10.quantity := by
    norm_num [samplePosition10, samplePosition]
  obtain ⟨h1, h2, h3⟩ :=
    (closePosition_partial_or_full sampleBook10 ("B", 0) 103 4 samplePosition10 hnodup hp).1 h4 hlt
  exact ⟨hnodup, hp, h4, hlt, h1, h2, h3⟩

theorem applyCloses_partial_spec (calls : List (ℚ × ℚ)) :
    ∀ (s : RMState) (positionId : String × ℤ) (p : Position),
      mapGet s.portfolio positionId = some p → partialOk s positionId calls →
      ∃ p2, mapGet (applyCloses s positionId calls).portfolio positionId = some p2 ∧
        p2.entryPrice = p.entryPrice ∧ p2.side = p.side ∧
        p2.partialClosedQuantity.getD 0 + p2.quantity =
          p.partialClosedQuantity.getD 0 + p.quantity ∧
        (applyCloses s positionId calls).accountBalance =
          s.accountBalance +
            (calls.map fun c =>
              (c.1 - p.entryPrice) * c.2 * (if p.side = Side.LONG then 1 else -1)).sum := by
  induction calls with
  | nil =>
    intro s positionId p hp _
    exact ⟨p, hp, rfl, rfl, rfl, by simp [applyCloses]⟩
  | cons c rest ih =>
    obtain ⟨ce, cq⟩ := c
    intro s positionId p hp hok
    obtain ⟨⟨p', hp', h0, hq⟩, hrest⟩ := hok
    rw [hp] at hp'
    injection hp' with hpe
    subst hpe
    have step := closePosition_partial_step s positionId ce cq p hp (ne_of_gt h0) hq
    have hone : applyCloses s positionId ((ce, cq) :: rest) =
        applyCloses (closePosition s positionId ce (some cq) 0).2 positionId rest := rfl
    rw [step] at hrest
    rw [hone, step]
    set p1 : Position :=
      { p with quantity := p.quantity - cq,
               partialClosedQuantity := some (p.partialClosedQuantity.getD 0 + cq) } with hp1def
    set s1 : RMState :=
      { s with
        accountBalance := s.accountBalance +
          (ce - p.entryPrice) * cq * (if p.side = Side.LONG then 1 else -1),
        portfolio := mapSet s.portfolio positionId p1 } with hs1def
    have hp1 : mapGet s1.portfolio positionId = some p1 := mapGet_mapSet _ _ _
    obtain ⟨p2, hh1, hh2, hh3, hh4, hh5⟩ := ih s1 positionId p1 hp1 hrest
    refine ⟨p2, hh1, ?_, ?_, ?_, ?_⟩
    · exact hh2
    · exact hh3
    · rw [hh4]
      show (some (p.partialClosedQuantity.getD 0 + cq)).getD 0 + (p.quantity - cq) =
        p.partialClosedQuantity.getD 0 + p.quantity
      rw [Option.getD_some]
      ring
    · rw [hh5]
      show s1.accountBalance +
          (rest.map fun c =>
            (c.1 - p.entryPrice) * c.2 * (if p.side = Side.LONG then 1 else -1)).sum =
        s.accountBalance +
          (((ce, cq) :: rest).map fun c =>
            (c.1 - p.entryPrice) * c.2 * (if p.side = Side.LONG then 1 else -1)).sum
      rw [List.map_cons, List.sum_cons]
      show s.accountBalance +
          (ce - p.entryPrice) * cq * (if p.side = Side.LONG then 1 else -1) + _ = _
      ring

/-- C5: over any sequence of partial closes (each closing a quantity strictly
between 0 and the current open quantity) of a position that starts with no
partial closes, the accumulated `partialClosedQuantity` plus the remaining
open quantity always equals the original quantity, each close realizes
pnl = (exit − entry)·closedQty·(+1 if LONG else −1), and the account balance
changes by exactly the sum of those per-close pnl terms. -/
theorem partialClose_conservation (s : RMState) (positionId : String × ℤ) (p : Position)
    (calls : List (ℚ × ℚ)) (hp : mapGet s.portfolio positionId = some p)
    (hfresh : p.partialClosedQuantity = none) (hok : partialOk s positionId calls) :
    ∃ p2, mapGet (applyCloses s positionId calls).portfolio positionId = some p2 ∧
      p2.partialClosedQuantity.getD 0 + p2.quantity = p.quantity ∧
      p2.entryPrice = p.entryPrice ∧ p2.side = p.side ∧
      (applyCloses s positionId calls).accountBalance =
        s.accountBalance +
          (calls.map fun c =>
            (c.1 - p.entryPrice) * c.2 * (if p.side = Side.LONG then 1 else -1)).sum := by
  obtain ⟨p2, h1, h2, h3, h4, h5⟩ := applyCloses_partial_spec calls s positionId p hp hok
  refine ⟨p2, h1, ?_, h2, h3, h5⟩
  rw [h4, hfresh]
  simp

/-- C5 witness: on the concrete book holding a quantity-10 LONG position at
entry 100 with balance 10000, partially closing 4 units at 103 leaves
partialClosedQuantity + quantity = 10 and the balance changed by the realized
pnl (103−100)·4 = 12. -/
theorem partialClose_conservation_witness :
    mapGet sampleBook10.portfolio ("B", 0) = some samplePosition10 ∧
    samplePosition10.partialClosedQuantity = none ∧
    partialOk sampleBook10 ("B", 0) [(103, 4)] ∧
    (∃ p2, mapGet (applyCloses sampleBook10 ("B", 0) [(103, 4)]).portfolio ("B", 0) = some p2 ∧
      p2.partialClosedQuantity.getD 0 + p2.quantity = samplePosition10.quantity ∧
      p2.entryPrice = samplePosition10.entryPrice ∧ p2.side = samplePosition10.side ∧
      (applyCloses sampleBook10 ("B", 0) [(103, 4)]).accountBalance =
        sampleBook10.accountBalance +
          ([((103 : ℚ), (4 : ℚ))].map fun c =>
            (c.1 - samplePosition10.entryPrice) * c.2 *
              (if samplePosition10.side = Side.LONG then 1 else -1)).sum) := by
  have hp : mapGet sampleBook10.portfolio ("B", 0) = some samplePosition10 := by
    simp [sampleBook10, mapGet]
  have hfresh : samplePosition10.partialClosedQuantity = none := rfl
  have hok : partialOk sampleBook10 ("B", 0) [(103, 4)] := by
    refine ⟨⟨samplePosition10, hp, by norm_num, ?_⟩, trivial⟩
    norm_num [samplePosition10, samplePosition]
  exact ⟨hp, hfresh, hok,
    partialClose_conservation sampleBook10 ("B", 0) samplePosition10 [(103, 4)] hp hfresh hok⟩

theorem applyOutcomes_successCounts (outcomes : List (MotifType × Bool)) :
    ∀ (st : BLState) (m : MotifType),
      (applyOutcomes st outcomes).successCounts m =
        st.successCounts m + countOutcomes outcomes m true := by
  induction outcomes with
  | nil => intro st m; rfl
  | cons o rest ih =>
    obtain ⟨mt, b⟩ := o
    intro st m
    have h1 : applyOutcomes st ((mt, b) :: rest) = applyOutcomes (recordOutcome st mt b) rest := rfl
    rw [h1, ih]
    cases b with
    | true =>
      by_cases hm : m = mt
      · subst hm
        simp [recordOutcome, countOutcomes]
        omega
      · have hm2 : ¬mt = m := fun e => hm e.symm
        simp [recordOutcome, countOutcomes, hm, hm2]
    | false =>
      simp [recordOutcome, countOutcomes]

theorem applyOutcomes_failureCounts (outcomes : List (MotifType × Bool)) :
    ∀ (st : BLState) (m : MotifType),
      (applyOutcomes st outcomes).failureCounts m =
        st.failureCounts m + countOutcomes outcomes m false := by
  induction outcomes with
  | nil => intro st m; rfl
  | cons o rest ih =>
    obtain ⟨mt, b⟩ := o
    intro st m
    have h1 : applyOutcomes st ((mt, b) :: rest) = applyOutcomes (recordOutcome st mt b) rest := rfl
    rw [h1, ih]
    cases b with
    | true =>
      simp [recordOutcome, countOutcomes]
    | false =>
      by_cases hm : m = mt
      · subst hm
        simp [recordOutcome, countOutcomes]
        omega
      · have hm2 : ¬mt = m := fun e => hm e.symm
        simp [recordOutcome, countOutcomes, hm, hm2]

/-- C8: for every sequence of recorded outcomes, `estimateSuccessRate` for a
motif whose recorded tallies are s successes and f failures returns
(1 + s) / (2 + s + f); in particular after 10 successes and 0 failures for
trend it returns 11/12. -/
theorem estimateSuccessRate_formula :
    (∀ (outcomes : List (MotifType × Bool)) (m : MotifType),
      estimateSuccessRate (applyOutcomes initialBL outcomes) m =
        (1 + (countOutcomes outcomes m true : ℚ)) /
          (2 + (countOutcomes outcomes m true : ℚ) + (countOutcomes outcomes m false : ℚ))) ∧
    estimateSuccessRate (applyOutcomes initialBL (List.replicate 10 (MotifType.trend, true)))
      MotifType.trend = 11 / 12 := by
  have hmain : ∀ (outcomes : List (MotifType × Bool)) (m : MotifType),
      estimateSuccessRate (applyOutcomes initialBL outcomes) m =
        (1 + (countOutcomes outcomes m true : ℚ)) /
          (2 + (countOutcomes outcomes m true : ℚ) + (countOutcomes outcomes m false : ℚ)) := by
    intro outcomes m
    unfold estimateSuccessRate
    rw [applyOutcomes_successCounts, applyOutcomes_failureCounts]
    simp only [initialBL]
    congr 1
    · push_cast
      ring
    · push_cast
      ring
  refine ⟨hmain, ?_⟩
  rw [hmain]
  have hs : countOutcomes (List.replicate 10 (MotifType.trend, true)) MotifType.trend true = 10 := by
    decide
  have hf : countOutcomes (List.replicate 10 (MotifType.trend, true)) MotifType.trend false = 0 := by
    decide
  rw [hs, hf]
  norm_num

end AlgoTrader
